import Mathlib

/-!
Verification development for the schema-driven dynamic-form engine
(`parse-dynamic-form`): a shallow embedding of the field-dependency
evaluator, the validation-schema compiler, the default-value derivation,
the option resolver and the array-field guards, together with theorems
about their behaviour.

JavaScript runtime values are modelled by the inductive `JValue`.
Numbers are modelled by `Int` (no claim here depends on non-integral or
NaN behaviour).  Composite values (`vArr`, `vObj`, `vDate`) compare by
reference in JavaScript; in every comparison performed by this code the
two operands come from distinct provenances (live form state versus the
static schema), so strict equality on composites is modelled as `false`.
-/

inductive JValue where
  | vUndefined : JValue
  | vNull : JValue
  | vStr (s : String) : JValue
  | vNum (n : Int) : JValue
  | vBool (b : Bool) : JValue
  | vDate (t : Int) : JValue
  | vArr (elems : List JValue) : JValue
  | vObj (fields : List (String × JValue)) : JValue

/-- A JavaScript plain object, as an insertion-ordered association list. -/
abbrev JObj := List (String × JValue)

/-- First-match association-list lookup (JavaScript property access). -/
def alookup {α : Type} (l : List (String × α)) (k : String) : Option α :=
  match l with
  | [] => none
  | (k2, v) :: rest => if k2 = k then some v else alookup rest k

/-- JavaScript property read `v[key]` as it behaves for the values the
engine traverses: object property, array index (canonical numeric keys
and `length`), anything else gives `undefined`. -/
def objGet (v : JValue) (key : String) : JValue :=
  match v with
  | .vObj fields => (alookup fields key).getD .vUndefined
  | .vArr xs =>
      if key = "length" then .vNum xs.length
      else
        match key.toNat? with
        | some i => if toString i = key then (xs.get? i).getD .vUndefined else .vUndefined
        | none => .vUndefined
  | _ => .vUndefined

/-- Model of `typeof v === 'object'` (for non-null values reachable here). -/
def isObjectTy (v : JValue) : Bool :=
  match v with
  | .vObj _ => true
  | .vArr _ => true
  | .vDate _ => true
  | _ => false

/-- The loop body of `getNestedValue`: walk the remaining keys, bailing
out with `undefined` whenever the current value is `null`/`undefined`
or not of object type. -/
def getNested (current : JValue) (keys : List String) : JValue :=
  match keys with
  | [] => current
  | key :: rest =>
      match current with
      | .vUndefined => .vUndefined
      | .vNull => .vUndefined
      | .vObj fields => getNested (objGet (.vObj fields) key) rest
      | .vArr xs => getNested (objGet (.vArr xs) key) rest
      | .vDate t => getNested (objGet (.vDate t) key) rest
      | _ => .vUndefined

/-- Accumulating worker for `jsSplitDot`. -/
def splitDotAux (cs : List Char) (acc : List Char) : List String :=
  match cs with
  | [] => [String.mk acc.reverse]
  | c :: rest =>
      if c = '.' then String.mk acc.reverse :: splitDotAux rest []
      else splitDotAux rest (c :: acc)

/-- JavaScript `path.split('.')` (single-character separator): always
at least one segment, with empty segments around consecutive or
leading/trailing dots. -/
def jsSplitDot (path : String) : List String :=
  splitDotAux path.data []

/-- Model of `getNestedValue(obj, path)`: dot-separated path traversal into a
values record (source: `getNestedValue` in the field-dependencies
module). -/
def getNestedValue (obj : JObj) (path : String) : JValue :=
  getNested (.vObj obj) (jsSplitDot path)

/-- JavaScript strict equality `===` restricted to the values handled
here: structural on primitives, reference (hence `false` across
provenances) on composites. -/
def jsStrictEq (a b : JValue) : Bool :=
  match a, b with
  | .vUndefined, .vUndefined => true
  | .vNull, .vNull => true
  | .vStr s, .vStr t => s = t
  | .vNum m, .vNum n => m = n
  | .vBool p, .vBool q => p = q
  | _, _ => false

/-- Model of `Array.prototype.includes` (SameValueZero agrees with `===` on the
values modelled here). -/
def arrIncludes (xs : List JValue) (v : JValue) : Bool :=
  xs.any (fun x => jsStrictEq x v)

/-- Model of `String.prototype.includes` (substring test). -/
def strContains (s sub : String) : Bool :=
  sub = "" || (s.splitOn sub).length > 1

/-- A field dependency rule.  `condition` and `action` are the raw
strings carried by a schema parsed from JSON; a missing `value` is
`vUndefined`. -/
structure FieldDependency where
  field : String
  condition : String
  value : JValue
  action : String

/-- Model of `checkCondition(dependency, fieldValue)`: decides whether a single
dependency condition is satisfied by the referenced field's current
value. -/
def checkCondition (dep : FieldDependency) (fieldValue : JValue) : Bool :=
  match dep.condition with
  | "equals" => jsStrictEq fieldValue dep.value
  | "notEquals" => !jsStrictEq fieldValue dep.value
  | "contains" =>
      match fieldValue, dep.value with
      | .vArr xs, v => arrIncludes xs v
      | .vStr s, .vStr sub => strContains s sub
      | _, _ => false
  | "greaterThan" =>
      match fieldValue, dep.value with
      | .vNum a, .vNum b => a > b
      | _, _ => false
  | "lessThan" =>
      match fieldValue, dep.value with
      | .vNum a, .vNum b => a < b
      | _, _ => false
  | "in" =>
      match dep.value with
      | .vArr vs => arrIncludes vs fieldValue
      | _ => false
  | "notIn" =>
      match dep.value with
      | .vArr vs => !arrIncludes vs fieldValue
      | _ => true
  | "isEmpty" =>
      match fieldValue with
      | .vUndefined => true
      | .vNull => true
      | .vStr s => s = ""
      | .vArr xs => xs.isEmpty
      | _ => false
  | "isNotEmpty" =>
      !(match fieldValue with
        | .vUndefined => true
        | .vNull => true
        | .vStr s => s = ""
        | .vArr xs => xs.isEmpty
        | _ => false)
  | _ => true

/-- Derived per-field state. -/
structure FieldState where
  visible : Bool
  disabled : Bool
  required : Bool
deriving DecidableEq, Repr

/-- Model of `required?: boolean | string` (also used for `email?`/`url?`). -/
inductive ReqVal where
  | rbool (b : Bool) : ReqVal
  | rstr (s : String) : ReqVal
deriving DecidableEq, Repr

/-- JavaScript truthiness of an optional boolean-or-message flag. -/
def truthyReq (r : Option ReqVal) : Bool :=
  match r with
  | none => false
  | some (.rbool b) => b
  | some (.rstr s) => s ≠ ""

/-- Model of `minLength`/`maxLength`: `number | value-with-message`.  Messages do
not affect acceptance and are omitted. -/
inductive NumSpec where
  | plain (n : Nat) : NumSpec
  | boxed (n : Nat) : NumSpec
deriving DecidableEq, Repr

/-- JavaScript truthiness of an optional length bound (`0` is falsy, an
object form is always truthy). -/
def truthyNum (r : Option NumSpec) : Bool :=
  match r with
  | none => false
  | some (.plain n) => n ≠ 0
  | some (.boxed _) => true

/-- The numeric value carried by a length bound. -/
def numVal (r : NumSpec) : Nat :=
  match r with
  | .plain n => n
  | .boxed n => n

/-- Model of `pattern`: regex source string or source-with-message. -/
inductive PatSpec where
  | plain (src : String) : PatSpec
  | boxed (src : String) : PatSpec
deriving DecidableEq, Repr

def truthyPat (r : Option PatSpec) : Bool :=
  match r with
  | none => false
  | some (.plain s) => s ≠ ""
  | some (.boxed _) => true

def patVal (r : PatSpec) : String :=
  match r with
  | .plain s => s
  | .boxed s => s

/-- Per-field validation rules.  `min`/`max` are guarded by
`!== undefined` in the source, so only the numeric value matters. -/
structure FieldValidation where
  required : Option ReqVal := none
  minLength : Option NumSpec := none
  maxLength : Option NumSpec := none
  min : Option Int := none
  max : Option Int := none
  pattern : Option PatSpec := none
  email : Option ReqVal := none
  url : Option ReqVal := none
deriving DecidableEq, Repr

/-- A static select/radio/checkbox option. -/
structure FieldOption where
  label : String
  value : JValue

/-- A form field schema.  `ftype` is the raw `type` string (the source
switches on it with a default branch).  Purely presentational fields
(`label`, `placeholder`, `description`, `layout`, `props`, option
sourcing keys) are carried by the source but never read by the
functions verified here and are omitted. -/
inductive FormFieldSchema where
  | mk
    (name : String)
    (ftype : String)
    (defaultValue : Option JValue)
    (hidden : Option Bool)
    (disabled : Option Bool)
    (validation : Option FieldValidation)
    (options : Option (List FieldOption))
    (dependencies : Option (List FieldDependency))
    (children : Option (List FormFieldSchema))
    (minItems : Option Nat)
    (maxItems : Option Nat)

def FormFieldSchema.name : FormFieldSchema → String
  | .mk n _ _ _ _ _ _ _ _ _ _ => n

def FormFieldSchema.ftype : FormFieldSchema → String
  | .mk _ t _ _ _ _ _ _ _ _ _ => t

def FormFieldSchema.defaultValue : FormFieldSchema → Option JValue
  | .mk _ _ dv _ _ _ _ _ _ _ _ => dv

def FormFieldSchema.hidden : FormFieldSchema → Option Bool
  | .mk _ _ _ h _ _ _ _ _ _ _ => h

def FormFieldSchema.disabled : FormFieldSchema → Option Bool
  | .mk _ _ _ _ d _ _ _ _ _ _ => d

def FormFieldSchema.validation : FormFieldSchema → Option FieldValidation
  | .mk _ _ _ _ _ v _ _ _ _ _ => v

def FormFieldSchema.options : FormFieldSchema → Option (List FieldOption)
  | .mk _ _ _ _ _ _ o _ _ _ _ => o

def FormFieldSchema.dependencies : FormFieldSchema → Option (List FieldDependency)
  | .mk _ _ _ _ _ _ _ d _ _ _ => d

def FormFieldSchema.children : FormFieldSchema → Option (List FormFieldSchema)
  | .mk _ _ _ _ _ _ _ _ c _ _ => c

def FormFieldSchema.minItems : FormFieldSchema → Option Nat
  | .mk _ _ _ _ _ _ _ _ _ mi _ => mi

def FormFieldSchema.maxItems : FormFieldSchema → Option Nat
  | .mk _ _ _ _ _ _ _ _ _ _ ma => ma

/-- The seed state computed from the field's static attributes:
`visible: !field.hidden`, `disabled: field.disabled ?? false`,
`required: field.validation?.required ? true : false`. -/
def initialFieldState (field : FormFieldSchema) : FieldState :=
  { visible := !(field.hidden.getD false)
    disabled := field.disabled.getD false
    required :=
      match field.validation with
      | some v => truthyReq v.required
      | none => false }

/-- One iteration of the dependency loop in `computeFieldState`: apply
the action's effect when the condition holds, its inverse for
`show`/`hide`/`enable`/`disable` when it does not
(`require`/`optional` have no inverse). -/
def applyDependency (formValues : JObj) (state : FieldState)
    (dep : FieldDependency) : FieldState :=
  let dependentValue := getNestedValue formValues dep.field
  if checkCondition dep dependentValue then
    match dep.action with
    | "show" => { state with visible := true }
    | "hide" => { state with visible := false }
    | "enable" => { state with disabled := false }
    | "disable" => { state with disabled := true }
    | "require" => { state with required := true }
    | "optional" => { state with required := false }
    | _ => state
  else
    match dep.action with
    | "show" => { state with visible := false }
    | "hide" => { state with visible := true }
    | "enable" => { state with disabled := true }
    | "disable" => { state with disabled := false }
    | _ => state

/-- Model of `computeFieldState(field, formValues)`: seed from static attributes,
then fold the declared dependencies in declaration order. -/
def computeFieldState (field : FormFieldSchema) (formValues : JObj) : FieldState :=
  let state := initialFieldState field
  match field.dependencies with
  | none => state
  | some deps => deps.foldl (applyDependency formValues) state

/-!  Default-value derivation (`getFieldDefaultValue` in the schema
parser): the explicit `defaultValue` wins; otherwise the value is
type-directed, recursing into the children of a `group`. -/

mutual

def getFieldDefaultValue (field : FormFieldSchema) : JValue :=
  match field with
  | .mk _ ftype defaultValue _ _ _ options _ children _ _ =>
    match defaultValue with
    | some v => v
    | none =>
        match ftype with
        | "number" => .vUndefined
        | "checkbox" =>
            match options with
            | some opts => if opts.length > 1 then .vArr [] else .vBool false
            | none => .vBool false
        | "switch" => .vBool false
        | "group" =>
            match children with
            | some cs => .vObj (childDefaultValues cs)
            | none => .vObj []
        | "array" => .vArr []
        | _ => .vStr ""

def childDefaultValues (children : List FormFieldSchema) : List (String × JValue) :=
  match children with
  | [] => []
  | c :: rest => (c.name, getFieldDefaultValue c) :: childDefaultValues rest

end

/-!  The structural validator built by the schema parser.  `Zod` is the
shape of every schema `createFieldZodSchema` can construct; `accepts`
is its acceptance semantics.  Error messages never influence
acceptance and are not modelled.  Regex, email-format and URL-format
tests are delegated to an environment `StrEnv` standing for the
JavaScript regex engine. -/

inductive StrCheck where
  | minLen (n : Nat) : StrCheck
  | maxLen (n : Nat) : StrCheck
  | emailChk : StrCheck
  | urlChk : StrCheck
  | patternChk (src : String) : StrCheck

inductive Zod where
  | zstring (checks : List StrCheck) : Zod
  | znumber (lo hi : Option Int) : Zod
  | zboolean : Zod
  | zany : Zod
  | zdateOrString : Zod
  | zstrOrNum : Zod
  | zprimUnion : Zod
  | zobject (fields : List (String × Zod)) : Zod
  | zarray (item : Zod) (minI maxI : Option Nat) : Zod
  | zoptional (inner : Zod) : Zod

/-- The external string-test oracle (regex engine). -/
structure StrEnv where
  isEmail : String → Bool
  isUrl : String → Bool
  regexTest : String → String → Bool

/-- One string check against a string value. -/
def strCheckOk (env : StrEnv) (s : String) (c : StrCheck) : Bool :=
  match c with
  | .minLen n => n ≤ s.length
  | .maxLen n => s.length ≤ n
  | .emailChk => env.isEmail s
  | .urlChk => env.isUrl s
  | .patternChk src => env.regexTest src s

mutual

def accepts (env : StrEnv) (schema : Zod) (v : JValue) : Bool :=
  match schema with
  | .zoptional inner =>
      match v with
      | .vUndefined => true
      | _ => accepts env inner v
  | .zstring checks =>
      match v with
      | .vStr s => checks.all (strCheckOk env s)
      | _ => false
  | .znumber lo hi =>
      match v with
      | .vNum n =>
          (match lo with | some a => a ≤ n | none => true) &&
          (match hi with | some b => n ≤ b | none => true)
      | _ => false
  | .zboolean =>
      match v with
      | .vBool _ => true
      | _ => false
  | .zany => true
  | .zdateOrString =>
      match v with
      | .vStr _ => true
      | .vDate _ => true
      | _ => false
  | .zstrOrNum =>
      match v with
      | .vStr _ => true
      | .vNum _ => true
      | _ => false
  | .zprimUnion =>
      match v with
      | .vStr _ => true
      | .vNum _ => true
      | .vBool _ => true
      | _ => false
  | .zobject fields =>
      match v with
      | .vObj obj => acceptsFields env fields obj
      | _ => false
  | .zarray item minI maxI =>
      match v with
      | .vArr xs =>
          acceptsItems env item xs &&
          (match minI with | some a => a ≤ xs.length | none => true) &&
          (match maxI with | some b => xs.length ≤ b | none => true)
      | _ => false

def acceptsFields (env : StrEnv) (fields : List (String × Zod)) (obj : JObj) : Bool :=
  match fields with
  | [] => true
  | (n, sch) :: rest =>
      accepts env sch ((alookup obj n).getD .vUndefined) && acceptsFields env rest obj

def acceptsItems (env : StrEnv) (item : Zod) (xs : List JValue) : Bool :=
  match xs with
  | [] => true
  | x :: rest => accepts env item x && acceptsItems env item rest

end

/-- Model of `createStringSchema(validation, isEmail)`: a string validator with
the checks accumulated in source order (email, url, required ⇒
`min(1)`, minLength, maxLength, pattern). -/
def createStringSchema (validation : FieldValidation) (isEmailTy : Bool) : Zod :=
  .zstring
    ((if isEmailTy || truthyReq validation.email then [.emailChk] else []) ++
     (if truthyReq validation.url then [.urlChk] else []) ++
     (if truthyReq validation.required then [.minLen 1] else []) ++
     (match validation.minLength with
      | some b => if truthyNum (some b) then [.minLen (numVal b)] else []
      | none => []) ++
     (match validation.maxLength with
      | some b => if truthyNum (some b) then [.maxLen (numVal b)] else []
      | none => []) ++
     (match validation.pattern with
      | some p => if truthyPat (some p) then [.patternChk (patVal p)] else []
      | none => []))

/-- Model of `createNumberSchema(validation)`: numeric validator with the
`min`/`max` bounds (applied whenever defined). -/
def createNumberSchema (validation : FieldValidation) : Zod :=
  .znumber validation.min validation.max

mutual

/-- The base (pre-optionality) validator chosen by the field type:
the switch over `type` is a sequential string-equality dispatch with
a string-validator default branch. -/
def baseZodSchema (ftype : String) (validation : FieldValidation)
    (options : Option (List FieldOption))
    (children : Option (List FormFieldSchema))
    (minItems maxItems : Option Nat) : Zod :=
  if ftype = "number" then createNumberSchema validation
  else if ftype = "checkbox" then
    match options with
    | some opts =>
        if opts.length > 1 then .zarray .zprimUnion none none else .zboolean
    | none => .zboolean
  else if ftype = "switch" then .zboolean
  else if ftype = "date" then .zdateOrString
  else if ftype = "datetime" then .zdateOrString
  else if ftype = "file" then .zany
  else if ftype = "group" then
    match children with
    | some cs => .zobject (childZodSchemas cs)
    | none => .zobject []
  else if ftype = "array" then
    match children with
    | some cs =>
        if cs.length > 0 then
          .zarray (.zobject (childZodSchemas cs)) minItems maxItems
        else .zarray .zany none none
    | none => .zarray .zany none none
  else if ftype = "select" then .zstrOrNum
  else if ftype = "radio" then .zstrOrNum
  else if ftype = "email" then createStringSchema validation true
  else createStringSchema validation false
termination_by sizeOf children

/-- Model of `createFieldZodSchema(field)`: the base validator for the field
type, made optional when `validation.required` is falsy. -/
def createFieldZodSchema (field : FormFieldSchema) : Zod :=
  match field with
  | .mk _ ftype _ _ _ validationOpt options _ children minItems maxItems =>
    let validation := validationOpt.getD {}
    if truthyReq validation.required then
      baseZodSchema ftype validation options children minItems maxItems
    else .zoptional (baseZodSchema ftype validation options children minItems maxItems)
termination_by sizeOf field

def childZodSchemas (children : List FormFieldSchema) : List (String × Zod) :=
  match children with
  | [] => []
  | c :: rest => (c.name, createFieldZodSchema c) :: childZodSchemas rest
termination_by sizeOf children

end

/-- The form-level validator built by `parseFormSchema`: an object
schema over the per-field schemas (field names assumed distinct). -/
def parsedZodSchema (fields : List FormFieldSchema) : Zod :=
  .zobject (fields.map fun f => (f.name, createFieldZodSchema f))

/-- The form-level default values built by `parseFormSchema`. -/
def parsedDefaultValues (fields : List FormFieldSchema) : JObj :=
  fields.map fun f => (f.name, getFieldDefaultValue f)

/-!  Caller/schema default merging (`mergeDefaultValues`). -/

/-- JavaScript object spread `{...a, ...b}`: the keys of `a` in order
(values overridden by `b` where present) followed by the keys of `b`
not in `a`. -/
def objSpread (a b : JObj) : JObj :=
  (a.map fun kv => (kv.1, ((alookup b kv.1).getD kv.2))) ++
    b.filter (fun kv => (alookup a kv.1).isNone)

/-- Model of `mergeDefaultValues(schemaDefaults, userDefaults)`: return the
schema defaults when the caller passed nothing, otherwise the shallow
spread-merge with caller keys winning. -/
def mergeDefaultValues (schemaDefaults : JObj) (userDefaults : Option JObj) : JObj :=
  match userDefaults with
  | none => schemaDefaults
  | some u => objSpread schemaDefaults u

/-!  Option resolution (`useFieldOptions`): the `listMap` dictionary,
cascading lookup, parent-value extraction and the `refresh` precedence
chain.  The ambient `sessionStorage`-backed map is passed explicitly;
the asynchronous API fetch is represented by the `fromApi` outcome. -/

/-- One `listMap` entry: a flat option list or a cascading map from the
stringified parent value to an option list. -/
inductive ListMapValue where
  | simple (opts : List FieldOption) : ListMapValue
  | cascading (entries : List (String × List FieldOption)) : ListMapValue

/-- The shared dictionary store. -/
abbrev ListMap := List (String × ListMapValue)

/-- A resolved parent value (`string | number`). -/
inductive PV where
  | pstr (s : String) : PV
  | pnum (n : Int) : PV
deriving DecidableEq, Repr

/-- JavaScript `String(parentValue)`. -/
def pvToString (p : PV) : String :=
  match p with
  | .pstr s => s
  | .pnum n => toString n

/-- Model of `parentValue !== undefined && parentValue !== null && parentValue !== ''`. -/
def pvUsable (p : Option PV) : Bool :=
  match p with
  | none => false
  | some (.pstr s) => s ≠ ""
  | some (.pnum _) => true

/-- Model of `getOptionsFromListMap(listKey, parentValue)`: absent entry gives
an empty list; a flat entry is returned as-is; a cascading entry is
indexed by the stringified parent value when that value is usable,
otherwise an empty list. -/
def getOptionsFromListMap (listMap : ListMap) (listKey : String)
    (parentValue : Option PV) : List FieldOption :=
  match alookup listMap listKey with
  | none => []
  | some (.simple opts) => opts
  | some (.cascading entries) =>
      if pvUsable parentValue then
        match parentValue with
        | some p => (alookup entries (pvToString p)).getD []
        | none => []
      else []

/-- A value is skipped by the first-non-empty scan
(`v !== undefined && v !== null && v !== ''` fails). -/
def isEmptyWatched (v : JValue) : Bool :=
  match v with
  | .vUndefined => true
  | .vNull => true
  | .vStr s => s = ""
  | _ => false

/-- Model of `getParentValue()`: with one dependency the watched value itself
(when string or number); with several, the first non-empty entry of
the watched array (when string or number); otherwise undefined. -/
def getParentValue (dependsOn : List String) (watchedValues : JValue) : Option PV :=
  match dependsOn with
  | [] => none
  | [_] =>
      match watchedValues with
      | .vStr s => some (.pstr s)
      | .vNum n => some (.pnum n)
      | _ => none
  | _ :: _ :: _ =>
      match watchedValues with
      | .vArr xs =>
          match xs.find? (fun v => !isEmptyWatched v) with
          | some (.vStr s) => some (.pstr s)
          | some (.vNum n) => some (.pnum n)
          | _ => none
      | _ => none

/-- Model of `loadFromListMap()`: `some opts` when the hook sets the options
from the dictionary and reports success, `none` when it reports
failure (letting `refresh` fall through). -/
def loadFromListMap (listMap : ListMap) (optionsKey : Option String)
    (dependsOn : List String) (watchedValues : JValue) : Option (List FieldOption) :=
  match optionsKey with
  | none => none
  | some key =>
      if key = "" then none
      else
        let parentValue := getParentValue dependsOn watchedValues
        let loadedOptions := getOptionsFromListMap listMap key parentValue
        if loadedOptions.length > 0 then some loadedOptions
        else
          if dependsOn.length > 0 &&
              (parentValue.isNone || parentValue = some (.pstr "")) then
            some []
          else none

/-- Where `refresh()` took the options from. -/
inductive OptionsOutcome where
  | fromListMap (opts : List FieldOption) : OptionsOutcome
  | fromApi (url : String) : OptionsOutcome
  | fromStatic (opts : List FieldOption) : OptionsOutcome

def OptionsOutcome.isFromListMap : OptionsOutcome → Bool
  | .fromListMap _ => true
  | _ => false

/-- Model of `refresh()`: dictionary first, then the remote API when an
`optionsUrl` is configured, else the static options. -/
def refreshOptions (listMap : ListMap) (optionsKey : Option String)
    (dependsOn : List String) (watchedValues : JValue)
    (optionsUrl : Option String) (staticOptions : List FieldOption) : OptionsOutcome :=
  match loadFromListMap listMap optionsKey dependsOn watchedValues with
  | some opts => .fromListMap opts
  | none =>
      match optionsUrl with
      | some url => if url = "" then .fromStatic staticOptions else .fromApi url
      | none => .fromStatic staticOptions

/-!  Array-field controls (`UniversalArrayField` / `ArrayField`). -/

/-- Model of `isDisabled`: the field state's disabled flag or the readonly prop. -/
def arrayFieldIsDisabled (fieldState : FieldState) (readonly : Option Bool) : Bool :=
  fieldState.disabled || readonly.getD false

/-- Model of `canAdd`: add control enabled. -/
def canAdd (field : FormFieldSchema) (fieldState : FieldState)
    (readonly : Option Bool) (numItems : Nat) : Bool :=
  !arrayFieldIsDisabled fieldState readonly &&
    (match field.maxItems with
     | none => true
     | some m => numItems < m)

/-- Model of `canRemove`: remove control enabled. -/
def canRemove (field : FormFieldSchema) (fieldState : FieldState)
    (readonly : Option Bool) (numItems : Nat) : Bool :=
  !arrayFieldIsDisabled fieldState readonly &&
    (match field.minItems with
     | none => true
     | some m => m < numItems)

/-!  Helper definitions and lemmas shared by the theorems below. -/

/-- Model of `Array.isArray`. -/
def isJsArray : JValue → Bool
  | .vArr _ => true
  | _ => false

/-- Replace a field's dependency list (used to speak about evaluation
prefixes). -/
def setDependencies (field : FormFieldSchema)
    (deps : Option (List FieldDependency)) : FormFieldSchema :=
  match field with
  | .mk n t dv hh dd vv oo _ cc mi ma => .mk n t dv hh dd vv oo deps cc mi ma

/-- A fixed trivial regex oracle, used to instantiate `StrEnv` in
concrete evaluations. -/
def trivialStrEnv : StrEnv := ⟨fun _ => false, fun _ => false, fun _ _ => false⟩

/-- The field used in the last-rule-wins scenario: two dependencies
both targeting visibility. -/
def lastRuleField : FormFieldSchema :=
  .mk "target" "text" none none none none none
    (some [⟨"A", "equals", .vNum 1, "show"⟩, ⟨"B", "equals", .vNum 2, "hide"⟩])
    none none none

/-- Form values making both conditions of `lastRuleField` hold. -/
def lastRuleValues : JObj := [("A", .vNum 1), ("B", .vNum 2)]

/-- Concrete fields exercising each branch of the default-value
derivation. -/
def dvExplicitField : FormFieldSchema :=
  .mk "e" "text" (some (.vStr "explicit")) none none none none none none none none

def dvNumberField : FormFieldSchema :=
  .mk "n" "number" none none none none none none none none none

def dvCheckboxMultiField : FormFieldSchema :=
  .mk "cm" "checkbox" none none none none
    (some [⟨"a", .vStr "a"⟩, ⟨"b", .vStr "b"⟩]) none none none none

def dvCheckboxSingleField : FormFieldSchema :=
  .mk "cs" "checkbox" none none none none (some [⟨"a", .vStr "a"⟩]) none none none none

def dvCheckboxBareField : FormFieldSchema :=
  .mk "co" "checkbox" none none none none none none none none none

def dvSwitchField : FormFieldSchema :=
  .mk "sw" "switch" none none none none none none none none none

def dvGroupField : FormFieldSchema :=
  .mk "g" "group" none none none none none none
    (some [.mk "c" "text" none none none none none none none none none]) none none

def dvArrayField : FormFieldSchema :=
  .mk "ar" "array" none none none none none none none none none

def dvTextareaField : FormFieldSchema :=
  .mk "t" "textarea" none none none none none none none none none

/-- Truthiness of `validation.required` as seen by the schema
compiler (`validation = {}` when absent). -/
def fieldRequiredTruthy (field : FormFieldSchema) : Bool :=
  truthyReq ((field.validation.getD {}).required)

/-- A `select` field with `required: true`. -/
def selectRequiredField : FormFieldSchema :=
  .mk "s" "select" none none none (some { required := some (.rbool true) })
    none none none none none

/-- A `file` field with `required: true`. -/
def fileRequiredField : FormFieldSchema :=
  .mk "f" "file" none none none (some { required := some (.rbool true) })
    none none none none none

/-- A dictionary with one cascading entry under `cities`, keyed by
province, holding only a `BJ` list. -/
def cascadeListMap : ListMap :=
  [("cities", .cascading [("BJ", [⟨"Beijing A", .vStr "bja"⟩])])]

/-- Non-empty static options used to observe fall-through. -/
def fallbackOptions : List FieldOption := [⟨"Fallback", .vStr "fb"⟩]

theorem getNested_undefined (keys : List String) :
    getNested .vUndefined keys = .vUndefined := by
  cases keys <;> rfl

theorem checkCondition_default_eq_true (dep : FieldDependency) (v : JValue)
    (h : dep.condition ∉ (["equals", "notEquals", "contains", "greaterThan",
      "lessThan", "in", "notIn", "isEmpty", "isNotEmpty"] : List String)) :
    checkCondition dep v = true := by
  simp only [List.mem_cons, List.not_mem_nil, or_false, not_or] at h
  unfold checkCondition
  split <;> simp_all

/-- C3: when a dependency's condition evaluates to false, `show`,
`hide`, `enable` and `disable` apply their inverse effect (visible
becomes false resp. true, disabled becomes true resp. false), while
`require` and `optional` leave the state exactly as the preceding
steps produced it. -/
theorem applyDependency_false_condition_inverse
    (formValues : JObj) (state : FieldState) (dep : FieldDependency)
    (h : checkCondition dep (getNestedValue formValues dep.field) = false) :
    (dep.action = "show" →
      applyDependency formValues state dep = { state with visible := false }) ∧
    (dep.action = "hide" →
      applyDependency formValues state dep = { state with visible := true }) ∧
    (dep.action = "enable" →
      applyDependency formValues state dep = { state with disabled := true }) ∧
    (dep.action = "disable" →
      applyDependency formValues state dep = { state with disabled := false }) ∧
    (dep.action = "require" → applyDependency formValues state dep = state) ∧
    (dep.action = "optional" → applyDependency formValues state dep = state) := by
  refine ⟨fun ha => ?_, fun ha => ?_, fun ha => ?_, fun ha => ?_,
    fun ha => ?_, fun ha => ?_⟩ <;> simp [applyDependency, h, ha]

/-- Witness for C3 at concrete inputs: all six actions, under a false
condition (`x` is absent from the form values, so `equals 1` fails). -/
theorem applyDependency_false_condition_inverse_witness :
    applyDependency [] ⟨true, false, true⟩ ⟨"x", "equals", .vNum 1, "show"⟩ =
      ⟨false, false, true⟩ ∧
    applyDependency [] ⟨false, false, true⟩ ⟨"x", "equals", .vNum 1, "hide"⟩ =
      ⟨true, false, true⟩ ∧
    applyDependency [] ⟨true, false, true⟩ ⟨"x", "equals", .vNum 1, "enable"⟩ =
      ⟨true, true, true⟩ ∧
    applyDependency [] ⟨true, true, true⟩ ⟨"x", "equals", .vNum 1, "disable"⟩ =
      ⟨true, false, true⟩ ∧
    applyDependency [] ⟨true, false, true⟩ ⟨"x", "equals", .vNum 1, "require"⟩ =
      ⟨true, false, true⟩ ∧
    applyDependency [] ⟨true, false, false⟩ ⟨"x", "equals", .vNum 1, "optional"⟩ =
      ⟨true, false, false⟩ :=
  ⟨(applyDependency_false_condition_inverse [] ⟨true, false, true⟩
      ⟨"x", "equals", .vNum 1, "show"⟩ rfl).1 rfl,
   (applyDependency_false_condition_inverse [] ⟨false, false, true⟩
      ⟨"x", "equals", .vNum 1, "hide"⟩ rfl).2.1 rfl,
   (applyDependency_false_condition_inverse [] ⟨true, false, true⟩
      ⟨"x", "equals", .vNum 1, "enable"⟩ rfl).2.2.1 rfl,
   (applyDependency_false_condition_inverse [] ⟨true, true, true⟩
      ⟨"x", "equals", .vNum 1, "disable"⟩ rfl).2.2.2.1 rfl,
   (applyDependency_false_condition_inverse [] ⟨true, false, true⟩
      ⟨"x", "equals", .vNum 1, "require"⟩ rfl).2.2.2.2.1 rfl,
   (applyDependency_false_condition_inverse [] ⟨true, false, false⟩
      ⟨"x", "equals", .vNum 1, "optional"⟩ rfl).2.2.2.2.2 rfl⟩

/-- C4: dependencies are folded in declaration order; a `show`/`hide`
rule determines the visible attribute independently of the previous
state, an `enable`/`disable` rule likewise determines disabled, and an
applicable `require`/`optional` rule overwrites required; evaluating a
field whose dependency list ends in `d` first evaluates the prefix and
then applies `d`; and in the concrete two-rule scenario
`[show on A=1, hide on B=2]` with `A=1, B=2` the field ends hidden. -/
theorem computeFieldState_last_rule_wins
    (formValues : JObj) (s t : FieldState) (dep : FieldDependency)
    (field : FormFieldSchema) (ds : List FieldDependency) (d : FieldDependency) :
    (dep.action = "show" ∨ dep.action = "hide" →
      (applyDependency formValues s dep).visible =
        (applyDependency formValues t dep).visible) ∧
    (dep.action = "enable" ∨ dep.action = "disable" →
      (applyDependency formValues s dep).disabled =
        (applyDependency formValues t dep).disabled) ∧
    (checkCondition dep (getNestedValue formValues dep.field) = true →
      (dep.action = "require" → (applyDependency formValues s dep).required = true) ∧
      (dep.action = "optional" → (applyDependency formValues s dep).required = false)) ∧
    (field.dependencies = some (ds ++ [d]) →
      computeFieldState field formValues =
        applyDependency formValues
          (computeFieldState (setDependencies field (some ds)) formValues) d) ∧
    (computeFieldState lastRuleField lastRuleValues).visible = false := by
  refine ⟨?_, ?_, ?_, ?_, ?_⟩
  · intro ha
    rcases ha with ha | ha <;>
      cases hc : checkCondition dep (getNestedValue formValues dep.field) <;>
        simp [applyDependency, ha, hc]
  · intro ha
    rcases ha with ha | ha <;>
      cases hc : checkCondition dep (getNestedValue formValues dep.field) <;>
        simp [applyDependency, ha, hc]
  · intro hc
    exact ⟨fun ha => by simp [applyDependency, hc, ha],
      fun ha => by simp [applyDependency, hc, ha]⟩
  · intro hd
    cases field with
    | mk n ty dv hh dd vv oo deps cc mi ma =>
      simp only [FormFieldSchema.dependencies] at hd
      subst hd
      simp [computeFieldState, setDependencies, FormFieldSchema.dependencies,
        initialFieldState, FormFieldSchema.hidden, FormFieldSchema.disabled,
        FormFieldSchema.validation, List.foldl_append]
  · rfl

/-- Witness for C4: the override parts at the concrete `hide on B=2`
and `enable`/`require` rules (conditions satisfied by
`lastRuleValues`), the prefix decomposition of `lastRuleField`, and
the final hidden state. -/
theorem computeFieldState_last_rule_wins_witness :
    (applyDependency lastRuleValues ⟨true, true, true⟩
        ⟨"B", "equals", .vNum 2, "hide"⟩).visible =
      (applyDependency lastRuleValues ⟨false, false, false⟩
        ⟨"B", "equals", .vNum 2, "hide"⟩).visible ∧
    (applyDependency lastRuleValues ⟨true, true, true⟩
        ⟨"A", "equals", .vNum 1, "enable"⟩).disabled =
      (applyDependency lastRuleValues ⟨false, false, false⟩
        ⟨"A", "equals", .vNum 1, "enable"⟩).disabled ∧
    (applyDependency lastRuleValues ⟨true, true, false⟩
        ⟨"A", "equals", .vNum 1, "require"⟩).required = true ∧
    computeFieldState lastRuleField lastRuleValues =
      applyDependency lastRuleValues
        (computeFieldState
          (setDependencies lastRuleField (some [⟨"A", "equals", .vNum 1, "show"⟩]))
          lastRuleValues)
        ⟨"B", "equals", .vNum 2, "hide"⟩ ∧
    (computeFieldState lastRuleField lastRuleValues).visible = false :=
  ⟨(computeFieldState_last_rule_wins lastRuleValues ⟨true, true, true⟩
      ⟨false, false, false⟩ ⟨"B", "equals", .vNum 2, "hide"⟩ lastRuleField [] 
      ⟨"B", "equals", .vNum 2, "hide"⟩).1 (Or.inr rfl),
   (computeFieldState_last_rule_wins lastRuleValues ⟨true, true, true⟩
      ⟨false, false, false⟩ ⟨"A", "equals", .vNum 1, "enable"⟩ lastRuleField []
      ⟨"A", "equals", .vNum 1, "enable"⟩).2.1 (Or.inl rfl),
   ((computeFieldState_last_rule_wins lastRuleValues ⟨true, true, false⟩
      ⟨false, false, false⟩ ⟨"A", "equals", .vNum 1, "require"⟩ lastRuleField []
      ⟨"A", "equals", .vNum 1, "require"⟩).2.2.1 rfl).1 rfl,
   (computeFieldState_last_rule_wins lastRuleValues ⟨true, true, true⟩
      ⟨false, false, false⟩ ⟨"B", "equals", .vNum 2, "hide"⟩ lastRuleField
      [⟨"A", "equals", .vNum 1, "show"⟩]
      ⟨"B", "equals", .vNum 2, "hide"⟩).2.2.2.1 rfl,
   (computeFieldState_last_rule_wins lastRuleValues ⟨true, true, true⟩
      ⟨false, false, false⟩ ⟨"B", "equals", .vNum 2, "hide"⟩ lastRuleField []
      ⟨"B", "equals", .vNum 2, "hide"⟩).2.2.2.2⟩

/-- C5: an unrecognized condition kind is treated as satisfied for
every field value, so the dependency's true action effect (here:
`show` sets visible) is applied. -/
theorem checkCondition_unrecognized_true (dep : FieldDependency)
    (h : dep.condition ∉ (["equals", "notEquals", "contains", "greaterThan",
      "lessThan", "in", "notIn", "isEmpty", "isNotEmpty"] : List String)) :
    (∀ v, checkCondition dep v = true) ∧
    (dep.action = "show" → ∀ (formValues : JObj) (state : FieldState),
      applyDependency formValues state dep = { state with visible := true }) := by
  refine ⟨fun v => checkCondition_default_eq_true dep v h, fun ha formValues state => ?_⟩
  simp [applyDependency, checkCondition_default_eq_true dep _ h, ha]

/-- Witness for C5 at the unrecognized kind `bogus`. -/
theorem checkCondition_unrecognized_true_witness :
    checkCondition ⟨"x", "bogus", .vNull, "show"⟩ (.vNum 5) = true ∧
    applyDependency [] ⟨false, true, false⟩ ⟨"x", "bogus", .vNull, "show"⟩ =
      ⟨true, true, false⟩ :=
  ⟨(checkCondition_unrecognized_true ⟨"x", "bogus", .vNull, "show"⟩ (by decide)).1 _,
   (checkCondition_unrecognized_true ⟨"x", "bogus", .vNull, "show"⟩ (by decide)).2
     rfl [] ⟨false, true, false⟩⟩

/-- C9: nested-value lookup is total by construction and yields
`undefined` instead of failing: traversal from an `undefined`, `null`
or non-object value gives `undefined`, an absent key gives
`undefined`, and in particular a dependency naming a field missing
from the current values resolves to `undefined`. -/
theorem getNestedValue_safe_traversal :
    (∀ (v : JValue) (key : String) (rest : List String),
      v = .vUndefined ∨ v = .vNull ∨ isObjectTy v = false →
      getNested v (key :: rest) = .vUndefined) ∧
    (∀ (fields : JObj) (key : String) (rest : List String),
      alookup fields key = none →
      getNested (.vObj fields) (key :: rest) = .vUndefined) ∧
    (∀ (values : JObj) (name : String),
      jsSplitDot name = [name] →
      alookup values name = none →
      getNestedValue values name = .vUndefined) := by
  refine ⟨?_, ?_, ?_⟩
  · intro v key rest h
    rcases h with h | h | h
    · subst h; rfl
    · subst h; rfl
    · cases v <;> first | rfl | simp [isObjectTy] at h
  · intro fields key rest h
    simp [getNested, objGet, h, getNested_undefined]
  · intro values name hsplit hlook
    simp [getNestedValue, hsplit, getNested, objGet, hlook, getNested_undefined]

/-- Witness for C9: a primitive intermediate value, an absent key, and
a dependency target missing from the values. -/
theorem getNestedValue_safe_traversal_witness :
    getNested (.vNum 3) ["k"] = .vUndefined ∧
    getNested (.vObj [("a", .vNum 1)]) ["b"] = .vUndefined ∧
    getNestedValue [("a", .vNum 1)] "missing" = .vUndefined :=
  ⟨getNestedValue_safe_traversal.1 (.vNum 3) "k" [] (Or.inr (Or.inr rfl)),
   getNestedValue_safe_traversal.2.1 [("a", .vNum 1)] "b" [] rfl,
   getNestedValue_safe_traversal.2.2 [("a", .vNum 1)] "missing" rfl rfl⟩

/-- C10: with a non-array dependency value the two membership
conditions default asymmetrically — `in` is false and `notIn` is true
for every field value — so a show-on-in dependency hides the field
while a show-on-notIn dependency shows it. -/
theorem checkCondition_membership_nonarray_asymmetry
    (f a : String) (v fieldValue : JValue) (formValues : JObj) (state : FieldState)
    (hv : isJsArray v = false) :
    checkCondition ⟨f, "in", v, a⟩ fieldValue = false ∧
    checkCondition ⟨f, "notIn", v, a⟩ fieldValue = true ∧
    (applyDependency formValues state ⟨f, "in", v, "show"⟩).visible = false ∧
    (applyDependency formValues state ⟨f, "notIn", v, "show"⟩).visible = true := by
  cases v <;> simp_all [checkCondition, applyDependency, isJsArray]

/-- Witness for C10 at the non-array dependency value `"NA"`. -/
theorem checkCondition_membership_nonarray_asymmetry_witness :
    checkCondition ⟨"x", "in", .vStr "NA", "show"⟩ (.vStr "NA") = false ∧
    checkCondition ⟨"x", "notIn", .vStr "NA", "show"⟩ (.vStr "NA") = true ∧
    (applyDependency [("x", .vStr "NA")] ⟨true, false, false⟩
        ⟨"x", "in", .vStr "NA", "show"⟩).visible = false ∧
    (applyDependency [("x", .vStr "NA")] ⟨false, false, false⟩
        ⟨"x", "notIn", .vStr "NA", "show"⟩).visible = true :=
  ⟨(checkCondition_membership_nonarray_asymmetry "x" "show" (.vStr "NA") (.vStr "NA")
      [("x", .vStr "NA")] ⟨true, false, false⟩ rfl).1,
   (checkCondition_membership_nonarray_asymmetry "x" "show" (.vStr "NA") (.vStr "NA")
      [("x", .vStr "NA")] ⟨false, false, false⟩ rfl).2.1,
   (checkCondition_membership_nonarray_asymmetry "x" "show" (.vStr "NA") (.vStr "NA")
      [("x", .vStr "NA")] ⟨true, false, false⟩ rfl).2.2.1,
   (checkCondition_membership_nonarray_asymmetry "x" "show" (.vStr "NA") (.vStr "NA")
      [("x", .vStr "NA")] ⟨false, false, false⟩ rfl).2.2.2⟩

theorem alookup_append {α : Type} (l₁ l₂ : List (String × α)) (k : String) :
    alookup (l₁ ++ l₂) k =
      (match alookup l₁ k with
       | some v => some v
       | none => alookup l₂ k) := by
  induction l₁ with
  | nil => simp [alookup]
  | cons hd tl ih =>
      obtain ⟨k2, v⟩ := hd
      by_cases h : k2 = k <;> simp [alookup, h, ih]

theorem alookup_spread_map (s u : JObj) (k : String) :
    alookup (s.map fun kv => (kv.1, (alookup u kv.1).getD kv.2)) k =
      (alookup s k).map fun v => (alookup u k).getD v := by
  induction s with
  | nil => simp [alookup]
  | cons hd tl ih =>
      obtain ⟨k2, v⟩ := hd
      by_cases h : k2 = k <;> simp [alookup, h, ih]

theorem alookup_filter_of_key {α : Type} (l : List (String × α))
    (p : String × α → Bool) (k : String) (hp : ∀ v, p (k, v) = true) :
    alookup (l.filter p) k = alookup l k := by
  induction l with
  | nil => simp
  | cons hd tl ih =>
      obtain ⟨k2, v⟩ := hd
      by_cases h : k2 = k
      · subst h
        simp [List.filter_cons, hp v, alookup, ih]
      · cases hpk : p (k2, v) <;> simp [List.filter_cons, hpk, alookup, h, ih]

/-- C6: default merging is a shallow one-level right-biased merge —
an undefined caller argument returns the schema defaults unchanged,
every caller key takes the caller's value wholesale, every other key
keeps the schema default, and the concrete round trip
`{a:1}` over `{a:0, b:2}` gives `{a:1, b:2}`. -/
theorem mergeDefaultValues_shallow_right_biased :
    (∀ s : JObj, mergeDefaultValues s none = s) ∧
    (∀ (s u : JObj) (k : String) (v : JValue),
      alookup u k = some v → alookup (mergeDefaultValues s (some u)) k = some v) ∧
    (∀ (s u : JObj) (k : String),
      alookup u k = none → alookup (mergeDefaultValues s (some u)) k = alookup s k) ∧
    mergeDefaultValues [("a", .vNum 0), ("b", .vNum 2)] (some [("a", .vNum 1)]) =
      [("a", .vNum 1), ("b", .vNum 2)] := by
  refine ⟨fun s => rfl, ?_, ?_, rfl⟩
  · intro s u k v hu
    simp only [mergeDefaultValues, objSpread]
    rw [alookup_append]
    simp only [alookup_spread_map]
    cases hs : alookup s k with
    | some w => simp [hu]
    | none =>
        rw [alookup_filter_of_key u _ k (fun v2 => by simp [hs])]
        simp [hu]
  · intro s u k hu
    simp only [mergeDefaultValues, objSpread]
    rw [alookup_append]
    simp only [alookup_spread_map]
    cases hs : alookup s k with
    | some w => simp [hu]
    | none =>
        rw [alookup_filter_of_key u _ k (fun v2 => by simp [hs])]
        simp [hu]

/-- Witness for C6: the caller key `a` wins, the untouched key `b`
keeps its schema default. -/
theorem mergeDefaultValues_shallow_right_biased_witness :
    alookup (mergeDefaultValues [("a", .vNum 0), ("b", .vNum 2)]
      (some [("a", .vNum 1)])) "a" = some (.vNum 1) ∧
    alookup (mergeDefaultValues [("a", .vNum 0), ("b", .vNum 2)]
      (some [("a", .vNum 1)])) "b" =
      alookup [("a", .vNum 0), ("b", .vNum 2)] "b" :=
  ⟨mergeDefaultValues_shallow_right_biased.2.1
      [("a", .vNum 0), ("b", .vNum 2)] [("a", .vNum 1)] "a" (.vNum 1) rfl,
   mergeDefaultValues_shallow_right_biased.2.2.1
      [("a", .vNum 0), ("b", .vNum 2)] [("a", .vNum 1)] "b" rfl⟩

theorem childDefaultValues_eq_map (cs : List FormFieldSchema) :
    childDefaultValues cs = cs.map fun c => (c.name, getFieldDefaultValue c) := by
  induction cs with
  | nil => rfl
  | cons c rest ih => simp [childDefaultValues, ih]

/-- C7: the derived default value is the explicit `defaultValue` when
defined; otherwise undefined for `number`, an empty array for a
multi-option `checkbox`, false for a single-option or optionless
`checkbox` and for `switch`, the recursively built object of children
defaults for `group`, an empty array for `array`, and the empty
string for every other type. -/
theorem getFieldDefaultValue_spec (field : FormFieldSchema) :
    (∀ v, field.defaultValue = some v → getFieldDefaultValue field = v) ∧
    (field.defaultValue = none →
      (field.ftype = "number" → getFieldDefaultValue field = .vUndefined) ∧
      (field.ftype = "checkbox" → ∀ opts, field.options = some opts →
        opts.length > 1 → getFieldDefaultValue field = .vArr []) ∧
      (field.ftype = "checkbox" → ∀ opts, field.options = some opts →
        opts.length ≤ 1 → getFieldDefaultValue field = .vBool false) ∧
      (field.ftype = "checkbox" → field.options = none →
        getFieldDefaultValue field = .vBool false) ∧
      (field.ftype = "switch" → getFieldDefaultValue field = .vBool false) ∧
      (field.ftype = "group" →
        getFieldDefaultValue field =
          .vObj ((field.children.getD []).map fun c => (c.name, getFieldDefaultValue c))) ∧
      (field.ftype = "array" → getFieldDefaultValue field = .vArr []) ∧
      (field.ftype ∉ (["number", "checkbox", "switch", "group", "array"] : List String) →
        getFieldDefaultValue field = .vStr "")) := by
  cases field with
  | mk n ty dv hh dd vv oo deps cc mi ma =>
    constructor
    · intro v hv
      simp only [FormFieldSchema.defaultValue] at hv
      subst hv
      rfl
    · intro hdv
      simp only [FormFieldSchema.defaultValue] at hdv
      subst hdv
      refine ⟨?_, ?_, ?_, ?_, ?_, ?_, ?_, ?_⟩
      · intro ht
        simp only [FormFieldSchema.ftype] at ht
        subst ht
        rfl
      · intro ht opts ho hlen
        simp only [FormFieldSchema.ftype] at ht
        simp only [FormFieldSchema.options] at ho
        subst ht
        subst ho
        simp [getFieldDefaultValue, hlen]
      · intro ht opts ho hlen
        simp only [FormFieldSchema.ftype] at ht
        simp only [FormFieldSchema.options] at ho
        subst ht
        subst ho
        simp [getFieldDefaultValue, Nat.not_lt.mpr hlen]
      · intro ht ho
        simp only [FormFieldSchema.ftype] at ht
        simp only [FormFieldSchema.options] at ho
        subst ht
        subst ho
        rfl
      · intro ht
        simp only [FormFieldSchema.ftype] at ht
        subst ht
        rfl
      · intro ht
        simp only [FormFieldSchema.ftype] at ht
        subst ht
        cases cc with
        | none => rfl
        | some cs =>
            simp [getFieldDefaultValue, FormFieldSchema.children,
              childDefaultValues_eq_map]
      · intro ht
        simp only [FormFieldSchema.ftype] at ht
        subst ht
        rfl
      · intro ht
        simp only [FormFieldSchema.ftype, List.mem_cons, List.not_mem_nil,
          or_false, not_or] at ht
        obtain ⟨h1, h2, h3, h4, h5⟩ := ht
        exact getFieldDefaultValue.eq_9 n ty hh dd vv oo deps cc mi ma
          (fun h => h1 h) (fun h => h2 h) (fun h => h3 h)
          (fun h => h4 h) (fun h => h5 h)

/-- Witness for C7 at concrete fields of each kind. -/
theorem getFieldDefaultValue_spec_witness :
    getFieldDefaultValue dvExplicitField = .vStr "explicit" ∧
    getFieldDefaultValue dvNumberField = .vUndefined ∧
    getFieldDefaultValue dvCheckboxMultiField = .vArr [] ∧
    getFieldDefaultValue dvCheckboxSingleField = .vBool false ∧
    getFieldDefaultValue dvCheckboxBareField = .vBool false ∧
    getFieldDefaultValue dvSwitchField = .vBool false ∧
    getFieldDefaultValue dvGroupField = .vObj [("c", .vStr "")] ∧
    getFieldDefaultValue dvArrayField = .vArr [] ∧
    getFieldDefaultValue dvTextareaField = .vStr "" :=
  ⟨(getFieldDefaultValue_spec dvExplicitField).1 (.vStr "explicit") rfl,
   ((getFieldDefaultValue_spec dvNumberField).2 rfl).1 rfl,
   ((getFieldDefaultValue_spec dvCheckboxMultiField).2 rfl).2.1 rfl
     [⟨"a", .vStr "a"⟩, ⟨"b", .vStr "b"⟩] rfl (by decide),
   ((getFieldDefaultValue_spec dvCheckboxSingleField).2 rfl).2.2.1 rfl
     [⟨"a", .vStr "a"⟩] rfl (by decide),
   ((getFieldDefaultValue_spec dvCheckboxBareField).2 rfl).2.2.2.1 rfl rfl,
   ((getFieldDefaultValue_spec dvSwitchField).2 rfl).2.2.2.2.1 rfl,
   ((getFieldDefaultValue_spec dvGroupField).2 rfl).2.2.2.2.2.1 rfl,
   ((getFieldDefaultValue_spec dvArrayField).2 rfl).2.2.2.2.2.2.1 rfl,
   ((getFieldDefaultValue_spec dvTextareaField).2 rfl).2.2.2.2.2.2.2 (by decide)⟩

/-- C8: the add control is enabled iff the field is not effectively
disabled and the item count is strictly below `maxItems` (absent bound:
no limit); the remove control is enabled iff the field is not
effectively disabled and the count is strictly above `minItems`
(absent bound: no limit); hence, starting inside `[minItems, maxItems]`,
a guarded add or remove keeps the count inside the bounds. -/
theorem arrayField_add_remove_guards (field : FormFieldSchema)
    (fieldState : FieldState) (readonly : Option Bool) (n : Nat) :
    (canAdd field fieldState readonly n = true ↔
      (arrayFieldIsDisabled fieldState readonly = false ∧
        (field.maxItems = none ∨ ∃ m, field.maxItems = some m ∧ n < m))) ∧
    (canRemove field fieldState readonly n = true ↔
      (arrayFieldIsDisabled fieldState readonly = false ∧
        (field.minItems = none ∨ ∃ m, field.minItems = some m ∧ m < n))) ∧
    (∀ lo hi, field.minItems = some lo → field.maxItems = some hi →
      lo ≤ n → n ≤ hi →
      (canAdd field fieldState readonly n = true → lo ≤ n + 1 ∧ n + 1 ≤ hi) ∧
      (canRemove field fieldState readonly n = true → lo ≤ n - 1 ∧ n - 1 ≤ hi)) ∧
    (field.maxItems = none → arrayFieldIsDisabled fieldState readonly = false →
      canAdd field fieldState readonly n = true) ∧
    (field.minItems = none → arrayFieldIsDisabled fieldState readonly = false →
      canRemove field fieldState readonly n = true) := by
  refine ⟨?_, ?_, ?_, ?_, ?_⟩
  · cases hm : field.maxItems <;> simp [canAdd, hm]
  · cases hm : field.minItems <;> simp [canRemove, hm]
  · intro lo hi hlo hhi h1 h2
    constructor
    · intro hca
      simp [canAdd, hhi] at hca
      omega
    · intro hcr
      simp [canRemove, hlo] at hcr
      omega
  · intro hm hd
    simp [canAdd, hm, hd]
  · intro hm hd
    simp [canRemove, hm, hd]

/-- Witness for C8: a bounded field (`minItems = 1`, `maxItems = 3`)
with two items, and unbounded fields with many items. -/
theorem arrayField_add_remove_guards_witness :
    canAdd (.mk "xs" "array" none none none none none none none (some 1) (some 3))
      ⟨true, false, false⟩ none 2 = true ∧
    (1 ≤ 2 + 1 ∧ 2 + 1 ≤ 3) ∧
    canRemove (.mk "xs" "array" none none none none none none none (some 1) (some 3))
      ⟨true, false, false⟩ none 2 = true ∧
    (1 ≤ 2 - 1 ∧ 2 - 1 ≤ 3) ∧
    canAdd (.mk "ys" "array" none none none none none none none none none)
      ⟨true, false, false⟩ none 1000 = true ∧
    canRemove (.mk "ys" "array" none none none none none none none none none)
      ⟨true, false, false⟩ none 0 = true := by
  refine ⟨rfl, ?_, rfl, ?_, ?_, ?_⟩
  · exact ((arrayField_add_remove_guards
      (.mk "xs" "array" none none none none none none none (some 1) (some 3))
      ⟨true, false, false⟩ none 2).2.2.1 1 3 rfl rfl (by decide) (by decide)).1 rfl
  · exact ((arrayField_add_remove_guards
      (.mk "xs" "array" none none none none none none none (some 1) (some 3))
      ⟨true, false, false⟩ none 2).2.2.1 1 3 rfl rfl (by decide) (by decide)).2 rfl
  · exact (arrayField_add_remove_guards
      (.mk "ys" "array" none none none none none none none none none)
      ⟨true, false, false⟩ none 1000).2.2.2.1 rfl rfl
  · exact (arrayField_add_remove_guards
      (.mk "ys" "array" none none none none none none none none none)
      ⟨true, false, false⟩ none 0).2.2.2.2 rfl rfl

/-- Counterexample to C1 as stated: a required `select` field's
compiled validator accepts the empty string, and a required `file`
field's compiled validator accepts an absent value. -/
theorem createFieldZodSchema_required_claim_cex :
    accepts trivialStrEnv (createFieldZodSchema selectRequiredField) (.vStr "") = true ∧
    accepts trivialStrEnv (createFieldZodSchema fileRequiredField) .vUndefined = true := by
  constructor
  · simp [selectRequiredField, createFieldZodSchema, baseZodSchema, accepts, truthyReq]
  · simp [fileRequiredField, createFieldZodSchema, baseZodSchema, accepts, truthyReq]

set_option maxHeartbeats 1600000 in
/-- C1 (amended): a field whose `validation.required` is falsy compiles
to an optional validator accepting an absent value; with `required`
truthy, an absent value is rejected for every type except `file`
(whose any-validator accepts everything), and the empty string is
rejected exactly for the string-validated types (`email` and the
default branch) while `select`, `radio`, `date`, `datetime` and
`file` accept it. -/
theorem createFieldZodSchema_required_optionality
    (env : StrEnv) (field : FormFieldSchema) :
    (fieldRequiredTruthy field = false →
      accepts env (createFieldZodSchema field) .vUndefined = true) ∧
    (fieldRequiredTruthy field = true → field.ftype ≠ "file" →
      accepts env (createFieldZodSchema field) .vUndefined = false) ∧
    (fieldRequiredTruthy field = true →
      field.ftype ∉ (["number", "checkbox", "switch", "date", "datetime", "file",
        "group", "array", "select", "radio"] : List String) →
      accepts env (createFieldZodSchema field) (.vStr "") = false) ∧
    (fieldRequiredTruthy field = true →
      field.ftype ∈ (["select", "radio", "date", "datetime", "file"] : List String) →
      accepts env (createFieldZodSchema field) (.vStr "") = true) := by
  cases field with
  | mk n ty dv hh dd vv oo deps cc mi ma =>
    simp only [fieldRequiredTruthy, FormFieldSchema.validation, FormFieldSchema.ftype]
    refine ⟨?_, ?_, ?_, ?_⟩
    · intro h
      simp [createFieldZodSchema, h, accepts]
    · intro h hty
      simp only [createFieldZodSchema, h, if_true]
      rw [baseZodSchema.eq_def]
      split_ifs <;> (repeat' split) <;>
        simp_all [accepts, createNumberSchema, createStringSchema]
    · intro h hty
      simp only [List.mem_cons, List.not_mem_nil, or_false, not_or] at hty
      obtain ⟨h1, h2, h3, h4, h5, h6, h7, h8, h9, h10⟩ := hty
      simp only [createFieldZodSchema, h, if_true]
      rw [baseZodSchema.eq_def]
      simp only [h1, h2, h3, h4, h5, h6, h7, h8, h9, h10, if_false]
      split_ifs <;>
        simp [accepts, createStringSchema, h, List.all_append, strCheckOk,
          String.length_empty]
    · intro h hty
      simp only [List.mem_cons, List.not_mem_nil, or_false] at hty
      rcases hty with rfl | rfl | rfl | rfl | rfl <;>
        (simp only [createFieldZodSchema, h, if_true]
         rw [baseZodSchema.eq_def]
         simp [accepts])

/-- Witness for C1 at concrete fields: an optional text field accepts
absence; a required number field rejects absence; a required text
field rejects the empty string; a required select field accepts the
empty string. -/
theorem createFieldZodSchema_required_optionality_witness :
    accepts trivialStrEnv
      (createFieldZodSchema (.mk "t" "text" none none none none none none none none none))
      .vUndefined = true ∧
    accepts trivialStrEnv
      (createFieldZodSchema (.mk "n" "number" none none none
        (some { required := some (.rbool true) }) none none none none none))
      .vUndefined = false ∧
    accepts trivialStrEnv
      (createFieldZodSchema (.mk "t" "text" none none none
        (some { required := some (.rbool true) }) none none none none none))
      (.vStr "") = false ∧
    accepts trivialStrEnv
      (createFieldZodSchema selectRequiredField) (.vStr "") = true :=
  ⟨(createFieldZodSchema_required_optionality trivialStrEnv
      (.mk "t" "text" none none none none none none none none none)).1 rfl,
   (createFieldZodSchema_required_optionality trivialStrEnv
      (.mk "n" "number" none none none (some { required := some (.rbool true) })
        none none none none none)).2.1 rfl (by decide),
   (createFieldZodSchema_required_optionality trivialStrEnv
      (.mk "t" "text" none none none (some { required := some (.rbool true) })
        none none none none none)).2.2.1 rfl (by decide),
   (createFieldZodSchema_required_optionality trivialStrEnv
      selectRequiredField).2.2.2 rfl (by decide)⟩

/-- Counterexample to C2 as stated: with the cascading `cities` entry
lacking a `SH` key and the parent province resolved to `SH`,
resolution does not return the empty list from the dictionary — it
falls through to the static options, and to the remote URL when one
is configured. -/
theorem refreshOptions_cascading_claim_cex :
    refreshOptions cascadeListMap (some "cities") ["province"] (.vStr "SH")
      none fallbackOptions = .fromStatic fallbackOptions ∧
    (refreshOptions cascadeListMap (some "cities") ["province"] (.vStr "SH")
      none fallbackOptions).isFromListMap = false ∧
    refreshOptions cascadeListMap (some "cities") ["province"] (.vStr "SH")
      (some "https://api.example.com/cities") fallbackOptions =
      .fromApi "https://api.example.com/cities" :=
  ⟨rfl, rfl, rfl⟩

/-- C2 (amended): for a cascading entry, when the stringified first
non-empty dependency value indexes a non-empty stored list, exactly
that list is returned from the dictionary; when there is a dependency
and the resolved parent value is undefined or empty, the empty list
is returned immediately; but when the parent value is usable and its
key is absent from the cascading map, resolution falls through to
`optionsUrl` or the static options. -/
theorem refreshOptions_cascading_amended
    (listMap : ListMap) (key : String) (dependsOn : List String)
    (watchedValues : JValue) (optionsUrl : Option String)
    (staticOptions : List FieldOption)
    (entries : List (String × List FieldOption)) :
    (key ≠ "" → alookup listMap key = some (.cascading entries) →
      ∀ p opts, getParentValue dependsOn watchedValues = some p →
        pvUsable (some p) = true →
        alookup entries (pvToString p) = some opts → opts ≠ [] →
        refreshOptions listMap (some key) dependsOn watchedValues optionsUrl
          staticOptions = .fromListMap opts) ∧
    (key ≠ "" → alookup listMap key = some (.cascading entries) →
      dependsOn ≠ [] →
      (getParentValue dependsOn watchedValues = none ∨
        getParentValue dependsOn watchedValues = some (.pstr "")) →
      refreshOptions listMap (some key) dependsOn watchedValues optionsUrl
        staticOptions = .fromListMap []) ∧
    (key ≠ "" → alookup listMap key = some (.cascading entries) →
      ∀ p, getParentValue dependsOn watchedValues = some p →
        pvUsable (some p) = true →
        alookup entries (pvToString p) = none →
        refreshOptions listMap (some key) dependsOn watchedValues optionsUrl
          staticOptions =
          (match optionsUrl with
           | some url => if url = "" then .fromStatic staticOptions else .fromApi url
           | none => .fromStatic staticOptions)) := by
  refine ⟨?_, ?_, ?_⟩
  · intro hk hmap p opts hp hpu hl hne
    simp [refreshOptions, loadFromListMap, getOptionsFromListMap, hk, hmap,
      hp, hpu, hl, List.length_pos.2 hne]
  · intro hk hmap hdep hp
    rcases hp with hp | hp <;>
      simp [refreshOptions, loadFromListMap, getOptionsFromListMap, hk, hmap,
        hp, pvUsable, List.length_pos.2 hdep]
  · intro hk hmap p hp hpu hl
    rcases p with s | m
    · have hs : s ≠ "" := by simpa [pvUsable] using hpu
      simp [refreshOptions, loadFromListMap, getOptionsFromListMap, hk, hmap,
        hp, hl, pvUsable, hs]
    · simp [refreshOptions, loadFromListMap, getOptionsFromListMap, hk, hmap,
        hp, hl, pvUsable]

/-- Witness for C2 at the `cities`/`province` scenario: `BJ` returns
exactly the stored list, an empty province returns the empty list,
and an absent `SH` key with a configured URL falls through to the
remote fetch. -/
theorem refreshOptions_cascading_amended_witness :
    refreshOptions cascadeListMap (some "cities") ["province"] (.vStr "BJ")
      none fallbackOptions = .fromListMap [⟨"Beijing A", .vStr "bja"⟩] ∧
    refreshOptions cascadeListMap (some "cities") ["province"] (.vStr "")
      none fallbackOptions = .fromListMap [] ∧
    refreshOptions cascadeListMap (some "cities") ["province"] (.vStr "SH")
      (some "https://api.example.com/cities") fallbackOptions =
      .fromApi "https://api.example.com/cities" :=
  ⟨(refreshOptions_cascading_amended cascadeListMap "cities" ["province"]
      (.vStr "BJ") none fallbackOptions [("BJ", [⟨"Beijing A", .vStr "bja"⟩])]).1
      (by decide) rfl (.pstr "BJ") [⟨"Beijing A", .vStr "bja"⟩] rfl (by decide)
      rfl (List.cons_ne_nil _ _),
   (refreshOptions_cascading_amended cascadeListMap "cities" ["province"]
      (.vStr "") none fallbackOptions [("BJ", [⟨"Beijing A", .vStr "bja"⟩])]).2.1
      (by decide) rfl (List.cons_ne_nil _ _) (Or.inr rfl),
   (refreshOptions_cascading_amended cascadeListMap "cities" ["province"]
      (.vStr "SH") (some "https://api.example.com/cities") fallbackOptions
      [("BJ", [⟨"Beijing A", .vStr "bja"⟩])]).2.2
      (by decide) rfl (.pstr "SH") rfl rfl rfl⟩
